import Mathlib

/-!
# Verification development for the `taro2-to-3` migration CLI

Shallow embedding of `bin/cli.js` (the orchestrator of the taro 2→3 codemod):
its fixed transformer list, the jscodeshift runner-argument construction, the
sequential pass loop with per-pass error capture, the bootstrap control flow,
the babel-config templating and the dependency reconciliation.  Components of
the repository that live outside `bin/cli.js` (the Project model, the marker
accumulator, the three jscodeshift transform modules and the dependency
registry) are modelled abstractly, or from the specification where noted.
-/

namespace TaroCli

/-! ## Constants from `bin/cli.js` -/

/-- `const transformers = ['router', 'taro-imports', 'page-config']` (cli.js:26-30). -/
def transformers : List String := ["router", "taro-imports", "page-config"]

/-- `const dependencyProperties = [...]` (cli.js:32-38). -/
def dependencyProperties : List String :=
  ["dependencies", "devDependencies", "clientDependencies",
   "isomorphicDependencies", "buildDependencies"]

/-- `const expectVersion = '^3.1.1'` (cli.js:196). -/
def expectVersion : String := "^3.1.1"

/-- `path.join(__dirname, '../transforms')` (cli.js:19), relative to the package root. -/
def transformersDir : String := "transforms"

/-- `path.join(__dirname, './babylon.config.json')` (cli.js:24). -/
def babylonConfig : String := "bin/babylon.config.json"

/-- `path.join(transformersDir, transformer + '.js')` (cli.js:123). -/
def transformerPathOf (t : String) : String := transformersDir ++ "/" ++ t ++ ".js"

/-! ## JS array/string helpers -/

/-- JS `Array.prototype.join(sep)`. -/
def joinWith (sep : String) : List String → String
  | [] => ""
  | [x] => x
  | x :: y :: xs => x ++ sep ++ joinWith sep (y :: xs)

/-! ## `getRunnerArgs` (cli.js:75-113) -/

/-- The option bag handed to `getRunnerArgs`: the yargs-parsed CLI options,
with `pages` set by `bootstrap`.  JS truthiness: a `0` cpu count, an empty
`gitignore` string and an empty `pages` string are falsy. -/
structure RunnerOptions where
  cpus : Option Nat := none
  gitignore : Option String := none
  style : Bool := false
  pages : Option String := none
deriving Repr, DecidableEq

/-- `options.cpus || Math.max(2, Math.ceil(os.cpus().length / 3))` (cli.js:87);
`numCpus` is `os.cpus().length`.  `Math.ceil(n / 3) = (n + 2) / 3` on naturals. -/
def cpusOf (numCpus : Nat) (o : RunnerOptions) : Nat :=
  match o.cpus with
  | some c => if c = 0 then max 2 ((numCpus + 2) / 3) else c
  | none => max 2 ((numCpus + 2) / 3)

/-- `getRunnerArgs(transformerPath, parser, options)` (cli.js:75-113), the
argument list (after the input path) for one jscodeshift invocation. -/
def getRunnerArgs (numCpus : Nat) (transformerPath : String) (parser : String)
    (o : RunnerOptions) : List String :=
  let args := ["--verbose=2", "--ignore-pattern=**/node_modules", "--quote=single"]
  let args := args ++ ["--cpus", toString (cpusOf numCpus o)]
  let args := args ++ ["--no-babel"]
  let args := args ++ ["--parser", parser]
  let args := args ++ ["--parser-config", babylonConfig]
  let args := args ++ ["--extensions=tsx,ts,jsx,js"]
  let args := args ++ ["--transform", transformerPath]
  let args := match o.gitignore with
    | some g => if g ≠ "" then args ++ ["--ignore-config", g] else args
    | none => args
  let args := if o.style then args ++ ["--importStyles"] else args
  match o.pages with
  | some ps => if ps ≠ "" then args ++ ["--pages=" ++ ps] else args
  | none => args

/-! ## Event-trace model of the run

`transform` (cli.js:121-145) spawns jscodeshift via execa and catches any
failure; `run` (cli.js:115-119) awaits the passes one by one; `bootstrap`
(cli.js:295-336) drives the whole session.  We model the observable behaviour
as a trace of events in program order; the outcome of each external
jscodeshift process is an unconstrained parameter. -/

/-- Outcome of the awaited `execa(jscodeshiftBin, args)` call for one pass. -/
inductive ExecOutcome where
  | ok
  | threw
deriving Repr, DecidableEq

/-- Observable events of a CLI session, in program order. -/
inductive Event where
  /-- `console.log(chalk.red(error.message))` in `bootstrap`'s catch (cli.js:320). -/
  | printedError (msg : String)
  /-- `process.exit(code)` (cli.js:321). -/
  | exited (code : Nat)
  /-- `project.transformAndOverwriteConfig()` (cli.js:323). -/
  | configRewritten
  /-- `project.transformEntry()` (cli.js:324). -/
  | entryRewritten
  /-- `await marker.start()` (cli.js:326). -/
  | markerStarted
  /-- `console.log(chalk.bgGreen.bold('Transform'), transformer)` (cli.js:122). -/
  | passStarted (name : String)
  /-- `await execa(jscodeshiftBin, args, ...)` (cli.js:133). -/
  | jscodeshift (name : String) (args : List String)
  /-- `console.error(err)` in `transform`'s catch (cli.js:138). -/
  | passErrorLogged (name : String)
  /-- `transform` returned (normally) to the `run` loop. -/
  | passCompleted (name : String)
  /-- `await marker.output()` (cli.js:331). -/
  | markerOutputRead
  /-- `await checkBabelConfig(...)` (cli.js:332). -/
  | babelConfigChecked
  /-- `await checkDependencies(...)` (cli.js:333). -/
  | dependenciesChecked
  /-- the final thanks banner (cli.js:335); the process then exits normally. -/
  | finished
deriving Repr, DecidableEq

/-- Trace of `transform(transformer, 'babylon', filePath, options)`
(cli.js:121-145): announce the pass, invoke jscodeshift on
`[filePath].concat(getRunnerArgs(...))`, catch and log any failure, return. -/
def transformTrace (numCpus : Nat) (t : String) (oc : ExecOutcome)
    (filePath : String) (o : RunnerOptions) : List Event :=
  [Event.passStarted t,
   Event.jscodeshift t ([filePath] ++ getRunnerArgs numCpus (transformerPathOf t) "babylon" o)]
  ++ (match oc with
      | ExecOutcome.ok => []
      | ExecOutcome.threw => [Event.passErrorLogged t])
  ++ [Event.passCompleted t]

/-- Trace of `run(filePath, args)` (cli.js:115-119): the `for ... of`/`await`
loop runs the transformers sequentially, in declared order, with the same
options. -/
def runTrace (numCpus : Nat) (filePath : String) (o : RunnerOptions)
    (oc : String → ExecOutcome) : List Event :=
  (transformers.map fun t => transformTrace numCpus t (oc t) filePath o).flatten

/-! ## The Project model and `bootstrap` -/

/-- The fields of the Project object that `bootstrap` consumes:
`project.sourceRoot` and `project.pages` (cli.js:328-329). -/
structure Project where
  sourceRoot : String
  pages : List String
deriving Repr, DecidableEq

/-- Modelled from the spec: the fatal failure modes of constructing the
Project model (`bin/project.js`, not part of the analysed sources) —
"fails with `ConfigNotFound`" / "fails with `SourceRootMissing`", both fatal. -/
inductive ProjectError where
  | configNotFound
  | sourceRootMissing
deriving Repr, DecidableEq

/-- Modelled from the spec: the message carried by the thrown error. -/
def ProjectError.message : ProjectError → String
  | ProjectError.configNotFound => "ConfigNotFound"
  | ProjectError.sourceRootMissing => "SourceRootMissing"

/-- The yargs-parsed command-line options that reach `run` (cli.js:296). -/
structure CliArgs where
  cpus : Option Nat := none
  gitignore : Option String := none
  style : Bool := false
deriving Repr, DecidableEq

/-- `args.pages = project.pages.concat(`${project.sourceRoot}/app`).join(',')`
(cli.js:328). -/
def pagesString (p : Project) : String :=
  joinWith "," (p.pages ++ [p.sourceRoot ++ "/app"])

/-- The option bag `bootstrap` hands to `run` (cli.js:328-329). -/
def bootstrapOptions (cli : CliArgs) (p : Project) : RunnerOptions :=
  { cpus := cli.cpus, gitignore := cli.gitignore, style := cli.style,
    pages := some (pagesString p) }

/-- Trace of `bootstrap` (cli.js:295-336) from Project construction onward
(the git-cleanliness preamble touches no project file).  `projectResult` is
the outcome of `new Project(projectDir)`; on a throw, the catch prints the
error and `process.exit(1)` terminates the run before any further statement. -/
def bootstrapTrace (numCpus : Nat) (projectResult : Except ProjectError Project)
    (cli : CliArgs) (oc : String → ExecOutcome) : List Event :=
  match projectResult with
  | Except.error e => [Event.printedError e.message, Event.exited 1]
  | Except.ok p =>
    [Event.configRewritten, Event.entryRewritten, Event.markerStarted]
    ++ runTrace numCpus p.sourceRoot (bootstrapOptions cli p) oc
    ++ [Event.markerOutputRead, Event.babelConfigChecked,
        Event.dependenciesChecked, Event.finished]

/-! ## Dependency markers and the babel-config template (cli.js:147-175) -/

/-- The dependency-marker set `marker.output()` resolves to: a map from
observed feature/package name to occurrence count (the marker module is
outside `bin/cli.js`; only its consumer side appears here). -/
abbrev MarkerSet : Type := List (String × Nat)

/-- JS property read `markers[k]`, with `undefined` compared as `0`. -/
def MarkerSet.count (m : MarkerSet) (k : String) : Nat :=
  match m.find? (fun e => e.1 == k) with
  | some e => e.2
  | none => 0

/-- `Object.keys(markers)`. -/
def MarkerSet.keys (m : MarkerSet) : List String := m.map Prod.fst

/-- The parameter object handed to `ejs.renderFile` by `renderBabelConfig`
(cli.js:149-153): the single key `shouldUseConstEnumPlugin`, true iff
`dependenciesMarkers['babel-plugin-const-enum'] > 0`. -/
def babelTemplateParams (markers : MarkerSet) : List (String × Bool) :=
  [("shouldUseConstEnumPlugin",
    decide (MarkerSet.count markers "babel-plugin-const-enum" > 0))]

/-- `renderBabelConfig(dependenciesMarkers)` (cli.js:147-163): render the
`babel.config.ejs` template with `babelTemplateParams`.  `ejsRender`
abstracts the ejs engine together with the template file (the template is
not part of the analysed sources); it resolves to a string or rejects. -/
def renderBabelConfig (ejsRender : List (String × Bool) → Except String String)
    (markers : MarkerSet) : Except String String :=
  ejsRender (babelTemplateParams markers)

/-- A file system as an association list, path ↦ contents, most recent
write first. -/
structure FS where
  files : List (String × String)
deriving Repr, DecidableEq

/-- Contents at a path. -/
def FS.read (fs : FS) (p : String) : Option String :=
  (fs.files.find? (fun e => e.1 == p)).map Prod.snd

/-- `fs.existsSync(p)`. -/
def FS.hasFile (fs : FS) (p : String) : Bool :=
  fs.files.any (fun e => e.1 == p)

/-- `fs.writeFile(p, c)`. -/
def FS.write (fs : FS) (p c : String) : FS := ⟨(p, c) :: fs.files⟩

/-- `path.join(projectDir, 'babel.config.js')` (cli.js:167). -/
def babelConfigPathIn (projectDir : String) : String := projectDir ++ "/babel.config.js"

/-- `checkBabelConfig(projectDir, dependenciesMarkers)` (cli.js:165-175):
if no `babel.config.js` exists in the project directory, render the template
and write it there; otherwise do nothing.  A render rejection is caught and
logged, leaving the file system unchanged. -/
def checkBabelConfig (ejsRender : List (String × Bool) → Except String String)
    (fs : FS) (projectDir : String) (markers : MarkerSet) : FS :=
  if fs.hasFile (babelConfigPathIn projectDir) then fs
  else
    match renderBabelConfig ejsRender markers with
    | Except.ok source => fs.write (babelConfigPathIn projectDir) source
    | Except.error _ => fs

/-! ## `checkDependencies` (cli.js:177-288) -/

/-- One dependency property of the manifest: a map name ↦ version range. -/
abbrev Deps : Type := List (String × String)

/-- JS property read `deps[depName]`. -/
def Deps.get (d : Deps) (k : String) : Option String :=
  (d.find? (fun e => e.1 == k)).map Prod.snd

/-- The package manifest: which dependency properties it has, each with its
dependency map. -/
abbrev PackageJson : Type := List (String × Deps)

/-- JS property read `packageJson[property]`. -/
def PackageJson.get (pkg : PackageJson) (property : String) : Option Deps :=
  (pkg.find? (fun e => e.1 == property)).map Prod.snd

/-- Modelled from the spec: one entry of the `install` list of the fixed
dependency registry (`bin/taroDeps.js`, not among the analysed sources);
`cli.js` reads its `name`, `version` and `dev` fields. -/
structure InstallDep where
  name : String
  version : String
  dev : Bool
deriving Repr, DecidableEq

/-- Modelled from the spec: the fixed registry of known dependency names
(`bin/taroDeps.js`): names to install, names to upgrade and deprecated
names to remove.  All claims quantify over its contents. -/
structure DepRegistry where
  install : List InstallDep
  upgrade : List String
  deprecated : List String
deriving Repr, DecidableEq

/-- A JS object assignment `obj[k] = v`: replace the value if the key is
present, otherwise append the binding. -/
def upInsert (m : List (String × String × String)) (k : String) (v : String × String) :
    List (String × String × String) :=
  if m.any (fun e => e.1 == k) then
    m.map (fun e => if e.1 == k then (k, v.1, v.2) else e)
  else m ++ [(k, v.1, v.2)]

/-- The body of `upgrade.forEach` (cli.js:203-208): record
`upgradeDeps[depName] = [versionRange, expectVersion]` when the declared
range is truthy and `semverSatisfies(expectVersion, versionRange)` fails.
`sat` abstracts `semver/functions/satisfies`. -/
def upgradeStep (sat : String → String → Bool) (deps : Deps)
    (m : List (String × String × String)) (depName : String) :
    List (String × String × String) :=
  match Deps.get deps depName with
  | some versionRange =>
      if versionRange != "" && !(sat expectVersion versionRange) then
        upInsert m depName (versionRange, expectVersion)
      else m
  | none => m

/-- The condition under which cli.js:205 marks `depName` for upgrade out of
the dependency map `deps`. -/
def upgradeCond (sat : String → String → Bool) (deps : Deps) (depName : String) : Bool :=
  match Deps.get deps depName with
  | some versionRange => versionRange != "" && !(sat expectVersion versionRange)
  | none => false

/-- JS truthiness of `deps[depName]` (cli.js:199): present with a non-empty
version string. -/
def truthyGet (deps : Deps) (depName : String) : Bool :=
  match Deps.get deps depName with
  | some v => v != ""
  | none => false

/-- One iteration of `dependencyProperties.forEach` (cli.js:190-209):
skip a missing property, collect deprecated names present, record upgrades. -/
def depPropertyStep (sat : String → String → Bool) (reg : DepRegistry) (pkg : PackageJson)
    (acc : List (String × String × String) × List String) (property : String) :
    List (String × String × String) × List String :=
  match PackageJson.get pkg property with
  | none => acc
  | some deps =>
      (reg.upgrade.foldl (upgradeStep sat deps) acc.1,
       acc.2 ++ reg.deprecated.filter (fun d => truthyGet deps d))

/-- The upgrade map (`upgradeDeps`) and removal list (`deprecatedDeps`)
computed by `checkDependencies` (cli.js:187-209). -/
def dependencyPlan (sat : String → String → Bool) (reg : DepRegistry) (pkg : PackageJson) :
    List (String × String × String) × List String :=
  dependencyProperties.foldl (depPropertyStep sat reg pkg) ([], [])

/-- `Object.keys(upgradeDeps).map(depName => depName@expect)` (cli.js:239-242). -/
def upgradePkgs (plan : List (String × String × String)) : List String :=
  plan.map (fun e => e.1 ++ "@" ++ e.2.2)

/-- The answer to the interactive install prompt (cli.js:244-253). -/
inductive InstallChoice where
  | npmYes
  | yarnYes
  | no
deriving Repr, DecidableEq

/-- The package-manager binary selected from the prompt answer (cli.js:255-260). -/
def binOf : InstallChoice → Option String
  | InstallChoice.npmYes => some "npm"
  | InstallChoice.yarnYes => some "yarn"
  | InstallChoice.no => none

/-- `['--registry', 'https://registry.npmmirror.com/']` (cli.js:267,277). -/
def registryArgs : List String := ["--registry", "https://registry.npmmirror.com/"]

/-- The dev-dependency install list (cli.js:272-275): the registry's dev
entries plus every key of the dependency-marker set. -/
def devInstallDeps (install : List InstallDep) (markers : MarkerSet) : List String :=
  ((install.filter (fun d => d.dev)).map (fun d => d.name)) ++ MarkerSet.keys markers

/-- One external package-manager invocation. -/
structure PmCommand where
  bin : String
  args : List String
deriving Repr, DecidableEq

/-- The external package-manager invocations issued by `checkDependencies`
(cli.js:262-287) once the user has answered the prompt: nothing without
opt-in; otherwise the plain install, the dev install and the uninstall. -/
def pmCommands (choice : InstallChoice) (reg : DepRegistry) (markers : MarkerSet)
    (plan : List (String × String × String) × List String) : List PmCommand :=
  match binOf choice with
  | none => []
  | some bin =>
    let installCommand := if bin == "npm" then "install" else "add"
    let uninstallCommand := if bin == "npm" then "uninstall" else "remove"
    let commonInstallDeps := (reg.install.filter (fun d => !d.dev)).map (fun d => d.name)
    [⟨bin, [installCommand] ++ (upgradePkgs plan.1 ++ commonInstallDeps) ++ registryArgs⟩,
     ⟨bin, [installCommand, "-D"] ++ devInstallDeps reg.install markers ++ registryArgs⟩,
     ⟨bin, [uninstallCommand] ++ plan.2⟩]

/-! ## The three pattern-rewriter passes, modelled from the spec

The transform modules `transforms/router.js`, `transforms/taro-imports.js`
and `transforms/page-config.js` are not among the analysed sources (only the
orchestrator `bin/cli.js` is); the models below follow the specification's
component designs for the three passes. -/

namespace RouterPass

/-- Modelled from the spec: the expression forms the `router` pass
distinguishes — the member access `this.$router`, its replacement
`this.$instance.router`, other leaves, and composite expressions. -/
inductive RExpr where
  | thisRouter
  | thisInstanceRouter
  | leaf (tag : Nat)
  | comp (tag : Nat) (l r : RExpr)
deriving Repr, DecidableEq

/-- Does the expression contain a `this.$router` member access? -/
def RExpr.hasRouter : RExpr → Bool
  | RExpr.thisRouter => true
  | RExpr.thisInstanceRouter => false
  | RExpr.leaf _ => false
  | RExpr.comp _ l r => l.hasRouter || r.hasRouter

/-- Replace every `this.$router` occurrence with `this.$instance.router`. -/
def RExpr.rewrite : RExpr → RExpr
  | RExpr.thisRouter => RExpr.thisInstanceRouter
  | RExpr.thisInstanceRouter => RExpr.thisInstanceRouter
  | RExpr.leaf t => RExpr.leaf t
  | RExpr.comp t l r => RExpr.comp t l.rewrite r.rewrite

/-- Modelled from the spec: a class component body, together with whether a
`$instance` class field is already declared. -/
structure RClass where
  hasInstanceField : Bool
  body : List RExpr
deriving Repr, DecidableEq

/-- Modelled from the spec: a source file as the `router` pass sees it — its
classes and whether the "get current instance" factory is imported from the
framework's API package. -/
structure RFile where
  importsFactory : Bool
  classes : List RClass
deriving Repr, DecidableEq

/-- Does the class body use `this.$router` anywhere? -/
def RClass.usesRouter (c : RClass) : Bool := c.body.any RExpr.hasRouter

/-- Rewrite one class: replace every usage and, unless it already declares
one, inject exactly one `$instance` field; untouched when it has no usage. -/
def rewriteClass (c : RClass) : RClass :=
  if c.usesRouter then
    { hasInstanceField := true, body := c.body.map RExpr.rewrite }
  else c

/-- Modelled from the spec: the `router` pass.  No-op (injects nothing,
rewrites nothing) if no `$router` usage exists in the file; otherwise
rewrite the classes and ensure the factory import. -/
def routerPass (f : RFile) : RFile :=
  if f.classes.any RClass.usesRouter then
    { importsFactory := true, classes := f.classes.map rewriteClass }
  else f

end RouterPass

namespace TaroImports

/-- Modelled from the spec: the fixed closed list of symbols belonging to
the UI layer (component base classes) that move to the new base package. -/
def uiSymbols : List String := ["Component", "PureComponent"]

/-- The legacy umbrella package. -/
def legacyPackage : String := "@tarojs/taro"

/-- The new base package of the component framework. -/
def reactPackage : String := "react"

/-- An import statement: source package, optional default binding, and the
named imports. -/
structure ImportStmt where
  source : String
  defaultBinding : Option String
  named : List String
deriving Repr, DecidableEq

/-- Modelled from the spec: the parts of a module the `taro-imports` pass
inspects — the import statements, the member accesses `obj.prop` in the
body, and the bare identifier references in the body. -/
structure TFile where
  imports : List ImportStmt
  memberRefs : List (String × String)
  bareRefs : List String
deriving Repr, DecidableEq

/-- Does this import match: from the legacy umbrella package, with a default
binding, which also imports a UI base-class symbol — named, or referenced as
a property access on the default binding elsewhere in the file? -/
def matchesLegacy (f : TFile) (i : ImportStmt) : Bool :=
  i.source == legacyPackage &&
  i.defaultBinding.isSome &&
  (i.named.any (fun n => uiSymbols.contains n) ||
   (match i.defaultBinding with
    | some d => f.memberRefs.any (fun r => r.1 == d && uiSymbols.contains r.2)
    | none => false))

/-- Is the new import shape (an import from the new base package) already
present? -/
def hasNewImportShape (f : TFile) : Bool :=
  f.imports.any (fun i => i.source == reactPackage)

/-- The rewrite on a matched file: split the legacy import, distribute the
named imports between framework API (stay) and UI base classes (move),
retain the legacy default import only if other members of it are referenced,
and rewrite property accesses of UI symbols on the default binding to bare
symbols. -/
def rewriteFile (f : TFile) : TFile :=
  match f.imports.find? (matchesLegacy f) with
  | none => f
  | some i =>
    let d := i.defaultBinding.getD ""
    let movedNamed := i.named.filter (fun n => uiSymbols.contains n)
    let keptNamed := i.named.filter (fun n => !uiSymbols.contains n)
    let rewrittenProps :=
      (f.memberRefs.filter (fun r => r.1 == d && uiSymbols.contains r.2)).map Prod.snd
    let otherUse :=
      f.memberRefs.any (fun r => r.1 == d && !uiSymbols.contains r.2) ||
      f.bareRefs.contains d || !keptNamed.isEmpty
    let reactImport : ImportStmt :=
      { source := reactPackage, defaultBinding := some "React",
        named := movedNamed ++ rewrittenProps }
    let legacyImport : ImportStmt :=
      { source := legacyPackage, defaultBinding := some d, named := keptNamed }
    { imports := reactImport :: ((if otherUse then [legacyImport] else []) ++ f.imports.erase i),
      memberRefs := f.memberRefs.filter (fun r => !(r.1 == d && uiSymbols.contains r.2)),
      bareRefs := f.bareRefs ++ rewrittenProps }

/-- Modelled from the spec: the `taro-imports` pass.  No-op if the new
shape of imports is already present, or if no import matches. -/
def taroImportsPass (f : TFile) : TFile :=
  if hasNewImportShape f then f else rewriteFile f

end TaroImports

namespace PageConfig

/-- A page-configuration object literal, carried verbatim. -/
abbrev ObjLit : Type := List (String × String)

/-- Modelled from the spec: the default export of a module — a class
component with an optional `config` class field, a function component
(identified by name), or no (unambiguous) default export. -/
inductive DefaultExport where
  | classComp (config : Option ObjLit)
  | funcComp (name : String)
  | absent
deriving Repr, DecidableEq

/-- Modelled from the spec: a source file as the `page-config` pass sees it:
whether it is the excluded entry module (`app`), its default export, the
post-declaration assignments `<Name>.config = {...}`, and the remaining
content (untouched by the pass). -/
structure PFile where
  isEntry : Bool
  defaultExport : DefaultExport
  configAssignments : List (String × ObjLit)
  rest : Nat
deriving Repr, DecidableEq

/-- Modelled from the spec: the `page-config` pass on one file — remove the
recognised config and emit it to the sibling `*.config` file; skip the entry
module; skip (with a warning) when the default export cannot be resolved or
the candidate configs are ambiguous. -/
def pageConfigPassFull (f : PFile) : PFile × Option ObjLit :=
  if f.isEntry then (f, none)
  else
    match f.defaultExport with
    | DefaultExport.absent => (f, none)
    | DefaultExport.classComp cfg? =>
      match cfg? with
      | some cfg =>
          if f.configAssignments.isEmpty then
            ({ f with defaultExport := DefaultExport.classComp none }, some cfg)
          else (f, none)
      | none => (f, none)
    | DefaultExport.funcComp name =>
      match f.configAssignments.filter (fun a => a.1 == name) with
      | [(_, cfg)] =>
          ({ f with
             configAssignments := f.configAssignments.filter (fun a => !(a.1 == name)) },
           some cfg)
      | _ => (f, none)

/-- The pass's effect on the source file's own content. -/
def pageConfigFile (f : PFile) : PFile := (pageConfigPassFull f).1

end PageConfig

/-! ## Projections and fixed data used by the statements below -/

/-- Projection keeping only pass start (`false`) / completion (`true`)
events, for stating the sequential scheduling of the passes. -/
def seqMark : Event → Option (String × Bool)
  | Event.passStarted n => some (n, false)
  | Event.passCompleted n => some (n, true)
  | _ => none

/-- The ordered chain of one-time events a successful run must exhibit:
project-model rewrites, then the three passes, then the marker read and its
two consumers. -/
def sessionChain : List Event :=
  [Event.configRewritten, Event.entryRewritten, Event.markerStarted,
   Event.passStarted "router", Event.passCompleted "router",
   Event.passStarted "taro-imports", Event.passCompleted "taro-imports",
   Event.passStarted "page-config", Event.passCompleted "page-config",
   Event.markerOutputRead, Event.babelConfigChecked, Event.dependenciesChecked]

/-! ## Concrete sample data, used to instantiate the theorems -/

/-- A sample project model. -/
def sampleProject : Project := { sourceRoot := "src", pages := ["pages/index/index"] }

/-- Default CLI options. -/
def sampleCli : CliArgs := {}

/-- Sample pass outcomes: the `router` invocation fails, the others succeed. -/
def sampleOutcomes : String → ExecOutcome :=
  fun t => if t == "router" then ExecOutcome.threw else ExecOutcome.ok

/-- A sample marker set. -/
def sampleMarkers : MarkerSet := [("babel-plugin-const-enum", 2), ("@tarojs/plugin-html", 1)]

/-- A sample ejs engine that always renders. -/
def sampleRender : List (String × Bool) → Except String String :=
  fun _ => Except.ok "module.exports = { presets: [] };"

/-- A file system already holding a babel config for project `proj`. -/
def sampleFS : FS := ⟨[("proj/babel.config.js", "module.exports = {};")]⟩

/-- An empty file system. -/
def emptyFS : FS := ⟨[]⟩

/-- A sample dependency registry (the shape of `bin/taroDeps.js`). -/
def sampleRegistry : DepRegistry :=
  { install := [⟨"@tarojs/plugin-framework-react", "^3.1.1", false⟩,
                ⟨"babel-preset-taro", "^3.1.1", true⟩],
    upgrade := ["@tarojs/taro", "@tarojs/components"],
    deprecated := ["@tarojs/taro-h5", "nervjs"] }

/-- A sample manifest declaring an outdated dependency and a deprecated one. -/
def samplePkg : PackageJson :=
  [("dependencies", [("@tarojs/taro", "^2.2.1"), ("nervjs", "^1.5.7")])]

/-- A sample satisfaction oracle under which `^2.2.1` fails the expectation. -/
def sampleSat : String → String → Bool := fun _ r => r == "^3.1.1"

/-! # Theorems -/

/-! ## Helper lemmas on traces -/

/-- The run trace is the concatenation of the three pass traces, in declared
order. -/
theorem runTrace_eq (numCpus : Nat) (filePath : String) (o : RunnerOptions)
    (oc : String → ExecOutcome) :
    runTrace numCpus filePath o oc
      = transformTrace numCpus "router" (oc "router") filePath o
        ++ (transformTrace numCpus "taro-imports" (oc "taro-imports") filePath o
        ++ transformTrace numCpus "page-config" (oc "page-config") filePath o) := by
  simp [runTrace, transformers]

/-- Projecting a pass trace onto start/completion marks. -/
theorem filterMap_seqMark_transformTrace (numCpus : Nat) (t : String) (ocr : ExecOutcome)
    (fp : String) (o : RunnerOptions) :
    (transformTrace numCpus t ocr fp o).filterMap seqMark = [(t, false), (t, true)] := by
  cases ocr <;> simp [transformTrace, seqMark]

/-- The start/completion marks of a whole run: each pass starts, and is
completed, exactly once, in declared order, with no interleaving. -/
theorem filterMap_seqMark_runTrace (numCpus : Nat) (fp : String) (o : RunnerOptions)
    (oc : String → ExecOutcome) :
    (runTrace numCpus fp o oc).filterMap seqMark
      = [("router", false), ("router", true),
         ("taro-imports", false), ("taro-imports", true),
         ("page-config", false), ("page-config", true)] := by
  rw [runTrace_eq]
  simp [List.filterMap_append, filterMap_seqMark_transformTrace]

/-- Every event of a pass trace is a pass event of that pass. -/
theorem mem_transformTrace_shape (numCpus : Nat) (t : String) (ocr : ExecOutcome)
    (fp : String) (o : RunnerOptions) (e : Event)
    (h : e ∈ transformTrace numCpus t ocr fp o) :
    e = Event.passStarted t
    ∨ (∃ a, e = Event.jscodeshift t a)
    ∨ e = Event.passErrorLogged t
    ∨ e = Event.passCompleted t := by
  cases ocr <;> simp [transformTrace] at h
  · rcases h with h | h | h
    · exact Or.inl h
    · exact Or.inr (Or.inl ⟨_, h⟩)
    · exact Or.inr (Or.inr (Or.inr h))
  · rcases h with h | h | h | h
    · exact Or.inl h
    · exact Or.inr (Or.inl ⟨_, h⟩)
    · exact Or.inr (Or.inr (Or.inl h))
    · exact Or.inr (Or.inr (Or.inr h))

/-- Every event of a run trace is a pass event. -/
theorem mem_runTrace_shape (numCpus : Nat) (fp : String) (o : RunnerOptions)
    (oc : String → ExecOutcome) (e : Event) (h : e ∈ runTrace numCpus fp o oc) :
    ∃ t, e = Event.passStarted t
       ∨ (∃ a, e = Event.jscodeshift t a)
       ∨ e = Event.passErrorLogged t
       ∨ e = Event.passCompleted t := by
  simp only [runTrace, List.mem_flatten, List.mem_map] at h
  obtain ⟨_, ⟨t, _, rfl⟩, hmem⟩ := h
  exact ⟨t, mem_transformTrace_shape _ _ _ _ _ _ hmem⟩

/-- C2: for every run, the transform passes execute one at a time,
sequentially, in the fixed declared order `router`, `taro-imports`,
`page-config`; the trace is the concatenation of the three pass traces, and
its start/completion marks show each pass starting only after the previous
one completed. -/
theorem passesRunSequentially (numCpus : Nat) (filePath : String) (o : RunnerOptions)
    (oc : String → ExecOutcome) :
    runTrace numCpus filePath o oc
      = transformTrace numCpus "router" (oc "router") filePath o
        ++ (transformTrace numCpus "taro-imports" (oc "taro-imports") filePath o
        ++ transformTrace numCpus "page-config" (oc "page-config") filePath o)
    ∧ (runTrace numCpus filePath o oc).filterMap seqMark
      = [("router", false), ("router", true),
         ("taro-imports", false), ("taro-imports", true),
         ("page-config", false), ("page-config", true)]
    ∧ transformers = ["router", "taro-imports", "page-config"] :=
  ⟨runTrace_eq numCpus filePath o oc,
   filterMap_seqMark_runTrace numCpus filePath o oc, rfl⟩

/-- C5: a fatal Project-construction failure prints the error message and
exits with status 1; no config rewrite, entry rewrite or transform pass
occurs in such a run. -/
theorem fatalProjectErrorAborts (numCpus : Nat) (e : ProjectError)
    (cli : CliArgs) (oc : String → ExecOutcome) :
    bootstrapTrace numCpus (Except.error e) cli oc
      = [Event.printedError e.message, Event.exited 1]
    ∧ Event.configRewritten ∉ bootstrapTrace numCpus (Except.error e) cli oc
    ∧ Event.entryRewritten ∉ bootstrapTrace numCpus (Except.error e) cli oc
    ∧ (∀ t, Event.passStarted t ∉ bootstrapTrace numCpus (Except.error e) cli oc)
    ∧ (∀ t a, Event.jscodeshift t a ∉ bootstrapTrace numCpus (Except.error e) cli oc) := by
  refine ⟨rfl, ?_, ?_, ?_, ?_⟩ <;> simp [bootstrapTrace]

/-- Witness for C5, at a concrete fatal error. -/
theorem fatalProjectErrorAborts_witness :
    bootstrapTrace 4 (Except.error ProjectError.configNotFound) sampleCli sampleOutcomes
      = [Event.printedError "ConfigNotFound", Event.exited 1] :=
  (fatalProjectErrorAborts 4 ProjectError.configNotFound sampleCli sampleOutcomes).1

/-! ## The pages option (C7 helpers) -/

/-- Joining a list whose last element is `x` yields a string at least as
long as `x`. -/
theorem joinWith_append_length (l : List String) (x : String) :
    x.length ≤ (joinWith "," (l ++ [x])).length := by
  induction l with
  | nil => simp [joinWith]
  | cons a l ih =>
    cases l with
    | nil =>
      simp only [List.nil_append, List.cons_append, joinWith, String.length_append]
      omega
    | cons b l' =>
      simp only [List.cons_append, List.append_eq, joinWith, String.length_append] at ih ⊢
      omega

/-- The pages option string of a project is never empty (it always contains
the `<sourceRoot>/app` entry). -/
theorem pagesString_ne_empty (p : Project) : pagesString p ≠ "" := by
  intro h
  have hlen := joinWith_append_length p.pages (p.sourceRoot ++ "/app")
  rw [show pagesString p = joinWith "," (p.pages ++ [p.sourceRoot ++ "/app"]) from rfl] at h
  rw [h] at hlen
  rw [String.length_append] at hlen
  have h4 : "/app".length = 4 := by decide
  have h0 : "".length = 0 := by decide
  omega

/-- With a truthy `pages` option, the runner argument list contains the
`--pages=<pages>` argument. -/
theorem getRunnerArgs_pages_mem (numCpus : Nat) (tp parser : String) (o : RunnerOptions)
    (ps : String) (hps : o.pages = some ps) (hne : ps ≠ "") :
    ("--pages=" ++ ps) ∈ getRunnerArgs numCpus tp parser o := by
  simp [getRunnerArgs, hps, hne]

/-- With a truthy `pages` option, `--pages=<pages>` is the last runner
argument. -/
theorem getRunnerArgs_pages_last (numCpus : Nat) (tp parser : String) (o : RunnerOptions)
    (ps : String) (hps : o.pages = some ps) (hne : ps ≠ "") :
    (getRunnerArgs numCpus tp parser o).getLast? = some ("--pages=" ++ ps) := by
  simp [getRunnerArgs, hps, hne]

/-- C7: the page scope handed to every pass is the declared page list with
`<sourceRoot>/app` appended as the final element, joined by commas; the
identical `--pages` option (built from the same option bag) reaches each of
the three passes, as the last runner argument. -/
theorem pagesScopeUniform (numCpus : Nat) (p : Project) (cli : CliArgs)
    (oc : String → ExecOutcome) :
    pagesString p = joinWith "," (p.pages ++ [p.sourceRoot ++ "/app"])
    ∧ ∀ t, t ∈ transformers →
        Event.jscodeshift t
            ([p.sourceRoot] ++ getRunnerArgs numCpus (transformerPathOf t) "babylon"
              (bootstrapOptions cli p))
          ∈ bootstrapTrace numCpus (Except.ok p) cli oc
        ∧ ("--pages=" ++ pagesString p)
            ∈ getRunnerArgs numCpus (transformerPathOf t) "babylon" (bootstrapOptions cli p)
        ∧ (getRunnerArgs numCpus (transformerPathOf t) "babylon"
            (bootstrapOptions cli p)).getLast?
          = some ("--pages=" ++ pagesString p) := by
  refine ⟨rfl, ?_⟩
  intro t ht
  have hps : (bootstrapOptions cli p).pages = some (pagesString p) := rfl
  refine ⟨?_, ?_, ?_⟩
  · have hmem : Event.jscodeshift t
        ([p.sourceRoot] ++ getRunnerArgs numCpus (transformerPathOf t) "babylon"
          (bootstrapOptions cli p))
        ∈ runTrace numCpus p.sourceRoot (bootstrapOptions cli p) oc := by
      simp only [runTrace, List.mem_flatten, List.mem_map]
      exact ⟨_, ⟨t, ht, rfl⟩, by simp [transformTrace]⟩
    simp only [List.cons_append, List.nil_append] at hmem
    simp [bootstrapTrace, hmem]
  · exact getRunnerArgs_pages_mem numCpus (transformerPathOf t) "babylon"
      (bootstrapOptions cli p) (pagesString p) hps (pagesString_ne_empty p)
  · exact getRunnerArgs_pages_last numCpus (transformerPathOf t) "babylon"
      (bootstrapOptions cli p) (pagesString p) hps (pagesString_ne_empty p)

/-- Witness for C7, at the `router` pass of the sample project. -/
theorem pagesScopeUniform_witness :
    ("--pages=" ++ pagesString sampleProject)
      ∈ getRunnerArgs 4 (transformerPathOf "router") "babylon"
          (bootstrapOptions sampleCli sampleProject) :=
  ((pagesScopeUniform 4 sampleProject sampleCli sampleOutcomes).2 "router" (by decide)).2.1

/-- C4: a failure inside a transform pass invocation is caught and logged,
never aborts the remaining passes, and does not change the final exit
status: every pass still completes, no `process.exit` occurs, and the run
reaches its final banner. -/
theorem passFailureIsolated (numCpus : Nat) (p : Project) (cli : CliArgs)
    (oc : String → ExecOutcome) :
    (∀ t, t ∈ transformers →
        Event.passCompleted t ∈ bootstrapTrace numCpus (Except.ok p) cli oc)
    ∧ (∀ t, t ∈ transformers → oc t = ExecOutcome.threw →
        Event.passErrorLogged t ∈ bootstrapTrace numCpus (Except.ok p) cli oc)
    ∧ (∀ c, Event.exited c ∉ bootstrapTrace numCpus (Except.ok p) cli oc)
    ∧ Event.finished ∈ bootstrapTrace numCpus (Except.ok p) cli oc := by
  refine ⟨?_, ?_, ?_, ?_⟩
  · intro t ht
    have hmem : Event.passCompleted t
        ∈ runTrace numCpus p.sourceRoot (bootstrapOptions cli p) oc := by
      simp only [runTrace, List.mem_flatten, List.mem_map]
      exact ⟨_, ⟨t, ht, rfl⟩, by cases oc t <;> simp [transformTrace]⟩
    simp [bootstrapTrace, hmem]
  · intro t ht hthrew
    have hmem : Event.passErrorLogged t
        ∈ runTrace numCpus p.sourceRoot (bootstrapOptions cli p) oc := by
      simp only [runTrace, List.mem_flatten, List.mem_map]
      exact ⟨_, ⟨t, ht, rfl⟩, by rw [hthrew]; simp [transformTrace]⟩
    simp [bootstrapTrace, hmem]
  · intro c hc
    simp only [bootstrapTrace, List.mem_append, List.mem_cons, List.not_mem_nil] at hc
    rcases hc with (hc | hc) | hc
    · simp at hc
    · obtain ⟨t, h⟩ := mem_runTrace_shape _ _ _ _ _ hc
      rcases h with h | ⟨a, h⟩ | h | h <;> simp at h
    · simp at hc
  · simp [bootstrapTrace]

/-- Witness for C4: with the sample outcomes the `router` invocation throws,
its error is logged, and the run still finishes. -/
theorem passFailureIsolated_witness :
    Event.passErrorLogged "router"
      ∈ bootstrapTrace 4 (Except.ok sampleProject) sampleCli sampleOutcomes :=
  (passFailureIsolated 4 sampleProject sampleCli sampleOutcomes).2.1 "router"
    (by decide) (by decide)

/-! ## Session ordering (C6 helpers) -/

/-- A pass trace begins with its start event and ends with its completion
event, whatever the jscodeshift outcome. -/
theorem startComplete_sublist (numCpus : Nat) (t : String) (ocr : ExecOutcome)
    (fp : String) (o : RunnerOptions) :
    List.Sublist [Event.passStarted t, Event.passCompleted t] (transformTrace numCpus t ocr fp o) := by
  cases ocr
  · exact List.Sublist.cons₂ _ (List.Sublist.cons _ (List.Sublist.refl _))
  · exact List.Sublist.cons₂ _ (List.Sublist.cons _ (List.Sublist.cons _ (List.Sublist.refl _)))

/-- The chain of one-time session events occurs in order in every successful
run: project-model rewrites, then each pass's start and completion in
declared order, then the marker read and its two consumers. -/
theorem sessionChain_sublist (numCpus : Nat) (p : Project) (cli : CliArgs)
    (oc : String → ExecOutcome) :
    List.Sublist sessionChain (bootstrapTrace numCpus (Except.ok p) cli oc) := by
  have h1 := startComplete_sublist numCpus "router" (oc "router")
    p.sourceRoot (bootstrapOptions cli p)
  have h2 := startComplete_sublist numCpus "taro-imports" (oc "taro-imports")
    p.sourceRoot (bootstrapOptions cli p)
  have h3 := startComplete_sublist numCpus "page-config" (oc "page-config")
    p.sourceRoot (bootstrapOptions cli p)
  have hrun : List.Sublist
      [Event.passStarted "router", Event.passCompleted "router",
       Event.passStarted "taro-imports", Event.passCompleted "taro-imports",
       Event.passStarted "page-config", Event.passCompleted "page-config"]
      (runTrace numCpus p.sourceRoot (bootstrapOptions cli p) oc) := by
    rw [runTrace_eq]
    have h123 := List.Sublist.append h1 (List.Sublist.append h2 h3)
    simpa using h123
  have hpost : List.Sublist
      [Event.markerOutputRead, Event.babelConfigChecked, Event.dependenciesChecked]
      [Event.markerOutputRead, Event.babelConfigChecked, Event.dependenciesChecked,
       Event.finished] :=
    List.Sublist.cons₂ _ (List.Sublist.cons₂ _ (List.Sublist.cons₂ _ (List.nil_sublist _)))
  have hall := List.Sublist.append
    (List.Sublist.append
      (List.Sublist.refl [Event.configRewritten, Event.entryRewritten, Event.markerStarted])
      hrun)
    hpost
  simpa [bootstrapTrace, sessionChain] using hall

/-- Non-pass events never occur inside the run trace. -/
theorem count_runTrace_nonpass (numCpus : Nat) (fp : String) (o : RunnerOptions)
    (oc : String → ExecOutcome) (e : Event)
    (h : ∀ t, (∀ a, e ≠ Event.jscodeshift t a) ∧ e ≠ Event.passStarted t
        ∧ e ≠ Event.passErrorLogged t ∧ e ≠ Event.passCompleted t) :
    (runTrace numCpus fp o oc).count e = 0 := by
  rw [List.count_eq_zero]
  intro hmem
  obtain ⟨t, hs | ⟨a, hs⟩ | hs | hs⟩ := mem_runTrace_shape _ _ _ _ _ hmem
  · exact (h t).2.1 hs
  · exact (h t).1 a hs
  · exact (h t).2.2.1 hs
  · exact (h t).2.2.2 hs

/-- C6: in every run, the project-model steps (build-config rewrite, entry
rewrite) complete before any pass starts, the marker output is read only
after all passes have finished and before the babel-config templater and
the dependency reconciler consume it; each of these one-time events occurs
exactly once, and the pass start/completion marks are exactly the three
passes in order. -/
theorem modelThenPassesThenConsumers (numCpus : Nat) (p : Project) (cli : CliArgs)
    (oc : String → ExecOutcome) :
    List.Sublist sessionChain (bootstrapTrace numCpus (Except.ok p) cli oc)
    ∧ (bootstrapTrace numCpus (Except.ok p) cli oc).filterMap seqMark
      = [("router", false), ("router", true),
         ("taro-imports", false), ("taro-imports", true),
         ("page-config", false), ("page-config", true)]
    ∧ (∀ e, e = Event.configRewritten ∨ e = Event.entryRewritten
          ∨ e = Event.markerStarted ∨ e = Event.markerOutputRead
          ∨ e = Event.babelConfigChecked ∨ e = Event.dependenciesChecked →
        (bootstrapTrace numCpus (Except.ok p) cli oc).count e = 1) := by
  refine ⟨sessionChain_sublist numCpus p cli oc, ?_, ?_⟩
  · simp only [bootstrapTrace, List.filterMap_append,
      filterMap_seqMark_runTrace numCpus p.sourceRoot (bootstrapOptions cli p) oc]
    simp [seqMark]
  · intro e he
    have hz : (runTrace numCpus p.sourceRoot (bootstrapOptions cli p) oc).count e = 0 := by
      refine count_runTrace_nonpass _ _ _ _ _ ?_
      rcases he with h | h | h | h | h | h <;> subst h <;>
        exact fun t => ⟨fun a => by simp, by simp, by simp, by simp⟩
    simp only [bootstrapTrace, List.count_append, hz]
    rcases he with h | h | h | h | h | h <;> subst h <;> simp [List.count_cons]

/-- Witness for C6: the marker output is read exactly once in the sample
run. -/
theorem modelThenPassesThenConsumers_witness :
    (bootstrapTrace 4 (Except.ok sampleProject) sampleCli sampleOutcomes).count
        Event.markerOutputRead = 1 :=
  (modelThenPassesThenConsumers 4 sampleProject sampleCli sampleOutcomes).2.2
    Event.markerOutputRead (by tauto)

/-! ## The babel-config template parameter (C1) -/

/-- C1 (counterexample): the single template parameter is not named
`shouldEnableLegacyDecoratorSupport` — at the sample marker set (and any
other) its name is `shouldUseConstEnumPlugin`. -/
theorem babelTemplateParamName_cex :
    (babelTemplateParams sampleMarkers).map Prod.fst
      ≠ ["shouldEnableLegacyDecoratorSupport"] := by
  decide

/-- C1 (amended): the template is rendered with exactly one boolean
parameter, named `shouldUseConstEnumPlugin`, and its value is derived from
the marker set: true exactly when the `babel-plugin-const-enum` marker
count is positive, false exactly when it is zero. -/
theorem babelTemplateSingleParam (markers : MarkerSet) :
    (babelTemplateParams markers).map Prod.fst = ["shouldUseConstEnumPlugin"]
    ∧ (babelTemplateParams markers = [("shouldUseConstEnumPlugin", true)]
       ↔ 0 < MarkerSet.count markers "babel-plugin-const-enum")
    ∧ (babelTemplateParams markers = [("shouldUseConstEnumPlugin", false)]
       ↔ MarkerSet.count markers "babel-plugin-const-enum" = 0) := by
  refine ⟨rfl, ?_, ?_⟩
  · simp [babelTemplateParams]
  · simp [babelTemplateParams]

/-! ## The babel-config file is only created, never overwritten (C9) -/

/-- C9: an existing `babel.config.js` in the project directory is never
overwritten or modified by `checkBabelConfig`; no other path is touched
either; the rendered template is written only when no such file exists. -/
theorem babelConfigNeverOverwritten
    (ejsRender : List (String × Bool) → Except String String)
    (fs : FS) (projectDir : String) (markers : MarkerSet) :
    (FS.hasFile fs (babelConfigPathIn projectDir) = true →
        checkBabelConfig ejsRender fs projectDir markers = fs)
    ∧ (∀ q, q ≠ babelConfigPathIn projectDir →
        FS.read (checkBabelConfig ejsRender fs projectDir markers) q = FS.read fs q)
    ∧ (FS.hasFile fs (babelConfigPathIn projectDir) = false →
        ∀ src, renderBabelConfig ejsRender markers = Except.ok src →
          checkBabelConfig ejsRender fs projectDir markers
            = FS.write fs (babelConfigPathIn projectDir) src) := by
  refine ⟨?_, ?_, ?_⟩
  · intro h
    simp [checkBabelConfig, h]
  · intro q hq
    unfold checkBabelConfig
    split
    · rfl
    · cases hr : renderBabelConfig ejsRender markers with
      | ok src =>
        have : (babelConfigPathIn projectDir == q) = false := by
          simp [Ne.symm hq]
        simp [FS.read, FS.write, List.find?, this]
      | error e => rfl
  · intro h src hsrc
    simp [checkBabelConfig, h, hsrc]

/-- Witness for C9: the sample file system already holds a babel config and
is returned unchanged. -/
theorem babelConfigNeverOverwritten_witness :
    checkBabelConfig sampleRender sampleFS "proj" sampleMarkers = sampleFS :=
  (babelConfigNeverOverwritten sampleRender sampleFS "proj" sampleMarkers).1 (by decide)

/-! ## Marker keys feed the dev install (C10) -/

/-- C10: when the user opts into automatic installation, every key of the
dependency-marker set is appended to the dev-dependency install list — in
addition to the fixed registry's dev entries — and exactly that list is
passed to the dev-install command. -/
theorem markerKeysDevInstalled (choice : InstallChoice) (b : String)
    (reg : DepRegistry) (markers : MarkerSet)
    (plan : List (String × String × String) × List String)
    (hb : binOf choice = some b) :
    (∀ k, k ∈ MarkerSet.keys markers → k ∈ devInstallDeps reg.install markers)
    ∧ (∀ d, d ∈ reg.install → d.dev = true → d.name ∈ devInstallDeps reg.install markers)
    ∧ PmCommand.mk b ([(if b == "npm" then "install" else "add"), "-D"]
          ++ devInstallDeps reg.install markers ++ registryArgs)
        ∈ pmCommands choice reg markers plan := by
  refine ⟨?_, ?_, ?_⟩
  · intro k hk
    exact List.mem_append_right _ hk
  · intro d hd hdev
    exact List.mem_append_left _
      (List.mem_map_of_mem _ (List.mem_filter.mpr ⟨hd, by simp [hdev]⟩))
  · simp [pmCommands, hb]

/-- Witness for C10: a sample marker key lands in the dev install list. -/
theorem markerKeysDevInstalled_witness :
    "babel-plugin-const-enum" ∈ devInstallDeps sampleRegistry.install sampleMarkers :=
  (markerKeysDevInstalled InstallChoice.npmYes "npm" sampleRegistry sampleMarkers
    (dependencyPlan sampleSat sampleRegistry samplePkg) rfl).1
    "babel-plugin-const-enum" (by decide)

/-! ## Dependency reconciliation (C3 helpers) -/

/-- A JS-object assignment adds exactly the assigned key to the key set. -/
theorem mem_upInsert_keys (m : List (String × String × String)) (k k' : String)
    (v : String × String) :
    k' ∈ (upInsert m k v).map Prod.fst ↔ k' ∈ m.map Prod.fst ∨ k' = k := by
  unfold upInsert
  split
  · next hany =>
    have hkeys : (m.map (fun e => if e.1 == k then (k, v.1, v.2) else e)).map Prod.fst
        = m.map Prod.fst := by
      rw [List.map_map]
      apply List.map_congr_left
      intro e _
      by_cases he : e.1 = k
      · simp [he]
      · simp [he]
    rw [hkeys]
    have hk : k ∈ m.map Prod.fst := by
      rw [List.any_eq_true] at hany
      obtain ⟨e, hem, hek⟩ := hany
      rw [beq_iff_eq] at hek
      exact hek ▸ List.mem_map_of_mem _ hem
    constructor
    · exact Or.inl
    · rintro (h | rfl)
      · exact h
      · exact hk
  · simp

/-- Keys accumulated by iterating the upgrade registry over one dependency
map. -/
theorem mem_foldl_upgradeStep_keys (sat : String → String → Bool) (deps : Deps)
    (l : List String) (m : List (String × String × String)) (d : String) :
    d ∈ (l.foldl (upgradeStep sat deps) m).map Prod.fst
      ↔ d ∈ m.map Prod.fst ∨ (d ∈ l ∧ upgradeCond sat deps d = true) := by
  induction l generalizing m with
  | nil => simp
  | cons a l ih =>
    rw [List.foldl_cons, ih]
    have hstep : d ∈ (upgradeStep sat deps m a).map Prod.fst
        ↔ d ∈ m.map Prod.fst ∨ (d = a ∧ upgradeCond sat deps a = true) := by
      cases hget : Deps.get deps a with
      | none => simp [upgradeStep, upgradeCond, hget]
      | some vr =>
        by_cases hc : (vr != "" && !sat expectVersion vr) = true
        · rw [show upgradeStep sat deps m a = upInsert m a (vr, expectVersion) by
            simp [upgradeStep, hget, hc]]
          rw [mem_upInsert_keys]
          simp [upgradeCond, hget, hc]
        · rw [show upgradeStep sat deps m a = m by
            simp [upgradeStep, hget, hc]]
          simp [upgradeCond, hget, hc]
    rw [hstep]
    constructor
    · rintro ((h | ⟨rfl, hc⟩) | ⟨hl, hc⟩)
      · exact Or.inl h
      · exact Or.inr ⟨List.mem_cons_self _ _, hc⟩
      · exact Or.inr ⟨List.mem_cons_of_mem _ hl, hc⟩
    · rintro (h | ⟨hal, hc⟩)
      · exact Or.inl (Or.inl h)
      · rcases List.mem_cons.mp hal with rfl | hl
        · exact Or.inl (Or.inr ⟨rfl, hc⟩)
        · exact Or.inr ⟨hl, hc⟩

/-- Keys of the upgrade map accumulated over a list of dependency
properties. -/
theorem mem_foldl_depPropertyStep_keys (sat : String → String → Bool)
    (reg : DepRegistry) (pkg : PackageJson) (props : List String)
    (acc : List (String × String × String) × List String) (d : String) :
    d ∈ ((props.foldl (depPropertyStep sat reg pkg) acc).1).map Prod.fst
      ↔ d ∈ acc.1.map Prod.fst
        ∨ (d ∈ reg.upgrade ∧ ∃ prop, prop ∈ props ∧ ∃ deps,
             PackageJson.get pkg prop = some deps ∧ upgradeCond sat deps d = true) := by
  induction props generalizing acc with
  | nil => simp
  | cons a props ih =>
    rw [List.foldl_cons, ih]
    have hstep : d ∈ ((depPropertyStep sat reg pkg acc a).1).map Prod.fst
        ↔ d ∈ acc.1.map Prod.fst
          ∨ (d ∈ reg.upgrade ∧ ∃ deps, PackageJson.get pkg a = some deps
              ∧ upgradeCond sat deps d = true) := by
      unfold depPropertyStep
      cases hget : PackageJson.get pkg a with
      | none => simp [hget]
      | some deps =>
        rw [mem_foldl_upgradeStep_keys]
        constructor
        · rintro (h | ⟨hu, hc⟩)
          · exact Or.inl h
          · exact Or.inr ⟨hu, deps, rfl, hc⟩
        · rintro (h | ⟨hu, deps', hd, hc⟩)
          · exact Or.inl h
          · rw [Option.some.injEq] at hd
            subst hd
            exact Or.inr ⟨hu, hc⟩
    rw [hstep]
    constructor
    · rintro ((h | ⟨hu, deps, hget, hc⟩) | ⟨hu, prop, hprop, deps, hget, hc⟩)
      · exact Or.inl h
      · exact Or.inr ⟨hu, a, List.mem_cons_self _ _, deps, hget, hc⟩
      · exact Or.inr ⟨hu, prop, List.mem_cons_of_mem _ hprop, deps, hget, hc⟩
    · rintro (h | ⟨hu, prop, hprop, deps, hget, hc⟩)
      · exact Or.inl (Or.inl h)
      · rcases List.mem_cons.mp hprop with rfl | hprop'
        · exact Or.inl (Or.inr ⟨hu, deps, hget, hc⟩)
        · exact Or.inr ⟨hu, prop, hprop', deps, hget, hc⟩

/-- The removal list accumulated over a list of dependency properties. -/
theorem mem_foldl_depPropertyStep_deprecated (sat : String → String → Bool)
    (reg : DepRegistry) (pkg : PackageJson) (props : List String)
    (acc : List (String × String × String) × List String) (d : String) :
    d ∈ (props.foldl (depPropertyStep sat reg pkg) acc).2
      ↔ d ∈ acc.2
        ∨ (d ∈ reg.deprecated ∧ ∃ prop, prop ∈ props ∧ ∃ deps,
             PackageJson.get pkg prop = some deps ∧ truthyGet deps d = true) := by
  induction props generalizing acc with
  | nil => simp
  | cons a props ih =>
    rw [List.foldl_cons, ih]
    have hstep : d ∈ (depPropertyStep sat reg pkg acc a).2
        ↔ d ∈ acc.2
          ∨ (d ∈ reg.deprecated ∧ ∃ deps, PackageJson.get pkg a = some deps
              ∧ truthyGet deps d = true) := by
      unfold depPropertyStep
      cases hget : PackageJson.get pkg a with
      | none => simp [hget]
      | some deps =>
        simp only [List.mem_append, List.mem_filter]
        constructor
        · rintro (h | ⟨hdep, ht⟩)
          · exact Or.inl h
          · exact Or.inr ⟨hdep, deps, rfl, ht⟩
        · rintro (h | ⟨hdep, deps', hd, ht⟩)
          · exact Or.inl h
          · rw [Option.some.injEq] at hd
            subst hd
            exact Or.inr ⟨hdep, ht⟩
    rw [hstep]
    constructor
    · rintro ((h | ⟨hdep, deps, hget, ht⟩) | ⟨hdep, prop, hprop, deps, hget, ht⟩)
      · exact Or.inl h
      · exact Or.inr ⟨hdep, a, List.mem_cons_self _ _, deps, hget, ht⟩
      · exact Or.inr ⟨hdep, prop, List.mem_cons_of_mem _ hprop, deps, hget, ht⟩
    · rintro (h | ⟨hdep, prop, hprop, deps, hget, ht⟩)
      · exact Or.inl (Or.inl h)
      · rcases List.mem_cons.mp hprop with rfl | hprop'
        · exact Or.inl (Or.inr ⟨hdep, deps, hget, ht⟩)
        · exact Or.inr ⟨hdep, prop, hprop', deps, hget, ht⟩

/-- The upgrade condition, spelled out: a declared (truthy) version range
that the expectation does not satisfy. -/
theorem upgradeCond_iff (sat : String → String → Bool) (deps : Deps) (d : String) :
    upgradeCond sat deps d = true
      ↔ ∃ vr, Deps.get deps d = some vr ∧ vr ≠ "" ∧ sat expectVersion vr = false := by
  unfold upgradeCond
  cases hget : Deps.get deps d <;> simp [hget]

/-- Truthy presence, spelled out. -/
theorem truthyGet_iff (deps : Deps) (d : String) :
    truthyGet deps d = true ↔ ∃ vr, Deps.get deps d = some vr ∧ vr ≠ "" := by
  unfold truthyGet
  cases hget : Deps.get deps d <;> simp [hget]

/-- C3: a dependency of the upgrade registry is marked for upgrade iff some
dependency property of the manifest declares it (truthily) with a version
range for which `semverSatisfies(expectVersion, range)` fails; a dependency
is marked for removal iff it is in the deprecated registry and declared
(truthily) in some dependency property. -/
theorem dependencyMarking (sat : String → String → Bool) (reg : DepRegistry)
    (pkg : PackageJson) (d : String) :
    (d ∈ reg.upgrade →
      (d ∈ ((dependencyPlan sat reg pkg).1).map Prod.fst
        ↔ ∃ prop, prop ∈ dependencyProperties ∧ ∃ deps,
            PackageJson.get pkg prop = some deps
            ∧ ∃ vr, Deps.get deps d = some vr ∧ vr ≠ ""
                ∧ sat expectVersion vr = false))
    ∧ (d ∈ (dependencyPlan sat reg pkg).2
        ↔ d ∈ reg.deprecated ∧ ∃ prop, prop ∈ dependencyProperties ∧ ∃ deps,
            PackageJson.get pkg prop = some deps
            ∧ ∃ vr, Deps.get deps d = some vr ∧ vr ≠ "") := by
  constructor
  · intro hu
    rw [show dependencyPlan sat reg pkg
        = dependencyProperties.foldl (depPropertyStep sat reg pkg) ([], []) from rfl]
    rw [mem_foldl_depPropertyStep_keys]
    simp only [List.map_nil, List.not_mem_nil, false_or]
    constructor
    · rintro ⟨_, prop, hprop, deps, hget, hc⟩
      exact ⟨prop, hprop, deps, hget, (upgradeCond_iff sat deps d).mp hc⟩
    · rintro ⟨prop, hprop, deps, hget, hvr⟩
      exact ⟨hu, prop, hprop, deps, hget, (upgradeCond_iff sat deps d).mpr hvr⟩
  · rw [show dependencyPlan sat reg pkg
        = dependencyProperties.foldl (depPropertyStep sat reg pkg) ([], []) from rfl]
    rw [mem_foldl_depPropertyStep_deprecated]
    simp only [List.not_mem_nil, false_or]
    constructor
    · rintro ⟨hdep, prop, hprop, deps, hget, ht⟩
      exact ⟨hdep, prop, hprop, deps, hget, (truthyGet_iff deps d).mp ht⟩
    · rintro ⟨hdep, prop, hprop, deps, hget, hvr⟩
      exact ⟨hdep, prop, hprop, deps, hget, (truthyGet_iff deps d).mpr hvr⟩

/-- Witness for C3: in the sample manifest, the outdated `@tarojs/taro` is
marked for upgrade and the deprecated `nervjs` is marked for removal. -/
theorem dependencyMarking_witness :
    "@tarojs/taro" ∈ ((dependencyPlan sampleSat sampleRegistry samplePkg).1).map Prod.fst
    ∧ "nervjs" ∈ (dependencyPlan sampleSat sampleRegistry samplePkg).2 :=
  ⟨((dependencyMarking sampleSat sampleRegistry samplePkg "@tarojs/taro").1
      (by decide)).mpr
    ⟨"dependencies", by decide, [("@tarojs/taro", "^2.2.1"), ("nervjs", "^1.5.7")],
      by decide, "^2.2.1", by decide, by decide, by decide⟩,
   (dependencyMarking sampleSat sampleRegistry samplePkg "nervjs").2.mpr
    ⟨by decide, "dependencies", by decide,
      [("@tarojs/taro", "^2.2.1"), ("nervjs", "^1.5.7")],
      by decide, "^1.5.7", by decide, by decide⟩⟩

/-! ## Idempotence of the passes (C8 helpers) -/

/-- Rewriting leaves no `this.$router` occurrence behind. -/
theorem RouterPass.RExpr.hasRouter_rewrite (e : RouterPass.RExpr) :
    e.rewrite.hasRouter = false := by
  induction e <;> simp [RouterPass.RExpr.rewrite, RouterPass.RExpr.hasRouter, *]

/-- A rewritten class no longer uses `this.$router`. -/
theorem RouterPass.rewriteClass_usesRouter (c : RouterPass.RClass) :
    (RouterPass.rewriteClass c).usesRouter = false := by
  unfold RouterPass.rewriteClass
  split
  · simp [RouterPass.RClass.usesRouter, List.any_map, Function.comp,
      RouterPass.RExpr.hasRouter_rewrite]
  · next h => exact Bool.eq_false_iff.mpr h

/-- A matched-and-rewritten module exhibits the new import shape. -/
theorem TaroImports.rewriteFile_hasNewImportShape (f : TaroImports.TFile)
    (i : TaroImports.ImportStmt)
    (hfind : f.imports.find? (TaroImports.matchesLegacy f) = some i) :
    TaroImports.hasNewImportShape (TaroImports.rewriteFile f) = true := by
  simp [TaroImports.rewriteFile, hfind, TaroImports.hasNewImportShape]

/-- C8: every transform pass is idempotent — applying a pass twice to any
file yields the same output as applying it once, for `router`,
`taro-imports` and `page-config` alike. -/
theorem passesIdempotent :
    (∀ f, RouterPass.routerPass (RouterPass.routerPass f) = RouterPass.routerPass f)
    ∧ (∀ f, TaroImports.taroImportsPass (TaroImports.taroImportsPass f)
        = TaroImports.taroImportsPass f)
    ∧ (∀ f, PageConfig.pageConfigFile (PageConfig.pageConfigFile f)
        = PageConfig.pageConfigFile f) := by
  refine ⟨?_, ?_, ?_⟩
  · intro f
    by_cases h : f.classes.any RouterPass.RClass.usesRouter = true
    · have h1 : RouterPass.routerPass f
          = { importsFactory := true, classes := f.classes.map RouterPass.rewriteClass } := by
        simp [RouterPass.routerPass, h]
      have hz : (f.classes.map RouterPass.rewriteClass).any RouterPass.RClass.usesRouter
          = false := by
        simp [List.any_map, Function.comp, RouterPass.rewriteClass_usesRouter]
      rw [h1]
      simp [RouterPass.routerPass, hz]
    · have h1 : RouterPass.routerPass f = f := by
        simp [RouterPass.routerPass, h]
      rw [h1, h1]
  · intro f
    by_cases h : TaroImports.hasNewImportShape f = true
    · have h1 : TaroImports.taroImportsPass f = f := by
        simp [TaroImports.taroImportsPass, h]
      rw [h1, h1]
    · have h1 : TaroImports.taroImportsPass f = TaroImports.rewriteFile f := by
        simp [TaroImports.taroImportsPass, h]
      rw [h1]
      cases hfind : f.imports.find? (TaroImports.matchesLegacy f) with
      | none =>
        have h2 : TaroImports.rewriteFile f = f := by
          simp [TaroImports.rewriteFile, hfind]
        rw [h2, h1, h2]
      | some i =>
        have hshape := TaroImports.rewriteFile_hasNewImportShape f i hfind
        simp [TaroImports.taroImportsPass, hshape]
  · intro f
    by_cases hE : f.isEntry = true
    · have h1 : PageConfig.pageConfigFile f = f := by
        simp [PageConfig.pageConfigFile, PageConfig.pageConfigPassFull, hE]
      rw [h1, h1]
    · cases hde : f.defaultExport with
      | absent =>
        have h1 : PageConfig.pageConfigFile f = f := by
          simp [PageConfig.pageConfigFile, PageConfig.pageConfigPassFull, hE, hde]
        rw [h1, h1]
      | classComp cfg? =>
        cases cfg? with
        | none =>
          have h1 : PageConfig.pageConfigFile f = f := by
            simp [PageConfig.pageConfigFile, PageConfig.pageConfigPassFull, hE, hde]
          rw [h1, h1]
        | some cfg =>
          by_cases hA : f.configAssignments.isEmpty = true
          · have h1 : PageConfig.pageConfigFile f
                = { f with defaultExport := PageConfig.DefaultExport.classComp none } := by
              simp [PageConfig.pageConfigFile, PageConfig.pageConfigPassFull, hE, hde, hA]
            rw [h1]
            simp [PageConfig.pageConfigFile, PageConfig.pageConfigPassFull, hE]
          · have h1 : PageConfig.pageConfigFile f = f := by
              simp [PageConfig.pageConfigFile, PageConfig.pageConfigPassFull, hE, hde, hA]
            rw [h1, h1]
      | funcComp name =>
        cases hfilt : f.configAssignments.filter (fun a => a.1 == name) with
        | nil =>
          have h1 : PageConfig.pageConfigFile f = f := by
            simp [PageConfig.pageConfigFile, PageConfig.pageConfigPassFull, hE, hde, hfilt]
          rw [h1, h1]
        | cons hd tl =>
          cases tl with
          | nil =>
            obtain ⟨hn, cfg⟩ := hd
            have h1 : PageConfig.pageConfigFile f
                = { f with configAssignments :=
                      f.configAssignments.filter (fun a => !(a.1 == name)) } := by
              simp [PageConfig.pageConfigFile, PageConfig.pageConfigPassFull, hE, hde, hfilt]
            rw [h1]
            have h2 : (f.configAssignments.filter (fun a => !(a.1 == name))).filter
                (fun a => a.1 == name) = [] := by
              rw [List.filter_filter]
              simp
            simp [PageConfig.pageConfigFile, PageConfig.pageConfigPassFull, hE, hde, h2]
          | cons hd2 tl2 =>
            have h1 : PageConfig.pageConfigFile f = f := by
              simp [PageConfig.pageConfigFile, PageConfig.pageConfigPassFull, hE, hde, hfilt]
            rw [h1, h1]

end TaroCli
